import Mathlib

/-!
# Verification of the ProctorExam Go client (`api.go`)

A shallow embedding of the request-signing and request/response pipeline of
the ProctorExam API client, together with proofs about its behaviour.

`src/api.go` holds two snapshots of the client.  The current snapshot
(`package main`, lines 1-329) carries the six resource methods, the
`params`/`queryParams` plumbing and the commented-out debug output; an older
draft follows a separator marker (lines 330 onward).  Definitions below are
translated from the current snapshot; the one definition taken from the older
draft (`signBaseStringOld`) is named and documented as such.

Go `map[string]string` values are modelled as association lists
(`List (String × String)`) carrying the pairs in some order; map reads,
writes and key iteration are modelled by `mapGet`, `mapSet` and `Prod.fst`
projection.  Machine integers that cannot overflow on the observed ranges
(IDs, clock readings) are modelled as `Int`/`Nat`.  Ambient state (the wall
clock, the global PRNG seed) is passed explicitly.
-/

namespace ProctorExam

/-- A Go `map[string]string`, as the list of its key/value pairs. -/
abbrev Params := List (String × String)

/-- Go map read `params[k]`: the stored value, or the zero value `""` when
the key is absent. -/
def mapGet (params : Params) (k : String) : String :=
  match params.find? (fun q => q.1 == k) with
  | some q => q.2
  | none => ""

/-- Go map write `params[k] = v`: overwrite the pair at `k` if present,
otherwise add it. -/
def mapSet (params : Params) (k v : String) : Params :=
  if params.any (fun q => q.1 == k) then
    params.map (fun q => if q.1 == k then (k, v) else q)
  else
    params ++ [(k, v)]

/-- `signParams` lines 98-102: collect the map's keys and `sort.Strings`
them (lexicographic byte-wise ascending, which on UTF-8 encoded strings
agrees with the codepoint order used by `String` here).  Any correct sort
yields the same list, so insertion sort models `sort.Strings` exactly. -/
def sortedKeys (params : Params) : List String :=
  (params.map Prod.fst).insertionSort (· ≤ ·)

/-- One iteration of the `baseString` loop of the current `signParams`
(lines 105-111): the first pair is written `key=value`, every later pair is
appended as `?key=value`. -/
def signBaseStep (params : Params) (acc k : String) : String :=
  if acc.length = 0 then
    k ++ "=" ++ mapGet params k
  else
    acc ++ "?" ++ k ++ "=" ++ mapGet params k

/-- The canonical string of the current `signParams` (lines 104-111). -/
def signBaseString (params : Params) : String :=
  (sortedKeys params).foldl (signBaseStep params) ""

/-- The canonical string of the older draft's `signParams` (lines 435-438):
every pair, the first included, is appended as `?key=value`. -/
def signBaseStringOld (params : Params) : String :=
  (sortedKeys params).foldl
    (fun acc k => acc ++ "?" ++ k ++ "=" ++ mapGet params k) ""

/-! ### Bytes, UTF-8, SHA-256, HMAC

`signParams` feeds the canonical string through `crypto/hmac` with
`crypto/sha256` and hex-encodes the digest.  The hash is embedded
executably over byte lists (`List Nat`, each entry `< 256`). -/

/-- UTF-8 encoding of one Unicode codepoint. -/
def utf8Bytes (c : Nat) : List Nat :=
  if c < 128 then [c]
  else if c < 2048 then
    [192 ||| (c >>> 6), 128 ||| (c &&& 63)]
  else if c < 65536 then
    [224 ||| (c >>> 12), 128 ||| ((c >>> 6) &&& 63), 128 ||| (c &&& 63)]
  else
    [240 ||| (c >>> 18), 128 ||| ((c >>> 12) &&& 63),
     128 ||| ((c >>> 6) &&& 63), 128 ||| (c &&& 63)]

/-- The UTF-8 bytes of a string (Go's `[]byte(s)`). -/
def strBytes (s : String) : List Nat :=
  (s.data.map (fun ch => utf8Bytes ch.toNat)).flatten

/-- Truncate to a 32-bit word. -/
def w32 (n : Nat) : Nat := n % 4294967296

/-- 32-bit rotate right. -/
def rotr32 (x n : Nat) : Nat := w32 ((x >>> n) ||| (x <<< (32 - n)))

/-- SHA-256 `Ch`. -/
def shaCh (x y z : Nat) : Nat := (x &&& y) ^^^ ((x ^^^ 4294967295) &&& z)

/-- SHA-256 `Maj`. -/
def shaMaj (x y z : Nat) : Nat := (x &&& y) ^^^ (x &&& z) ^^^ (y &&& z)

/-- SHA-256 `Σ₀`. -/
def bigSigma0 (x : Nat) : Nat := rotr32 x 2 ^^^ rotr32 x 13 ^^^ rotr32 x 22

/-- SHA-256 `Σ₁`. -/
def bigSigma1 (x : Nat) : Nat := rotr32 x 6 ^^^ rotr32 x 11 ^^^ rotr32 x 25

/-- SHA-256 `σ₀`. -/
def smallSigma0 (x : Nat) : Nat := rotr32 x 7 ^^^ rotr32 x 18 ^^^ (x >>> 3)

/-- SHA-256 `σ₁`. -/
def smallSigma1 (x : Nat) : Nat := rotr32 x 17 ^^^ rotr32 x 19 ^^^ (x >>> 10)

/-- The SHA-256 round constants (FIPS 180-4, in decimal). -/
def sha256K : List Nat :=
  [1116352408, 1899447441, 3049323471, 3921009573, 961987163,
   1508970993, 2453635748, 2870763221, 3624381080, 310598401,
   607225278, 1426881987, 1925078388, 2162078206, 2614888103,
   3248222580, 3835390401, 4022224774, 264347078, 604807628,
   770255983, 1249150122, 1555081692, 1996064986, 2554220882,
   2821834349, 2952996808, 3210313671, 3336571891, 3584528711,
   113926993, 338241895, 666307205, 773529912, 1294757372,
   1396182291, 1695183700, 1986661051, 2177026350, 2456956037,
   2730485921, 2820302411, 3259730800, 3345764771, 3516065817,
   3600352804, 4094571909, 275423344, 430227734, 506948616,
   659060556, 883997877, 958139571, 1322822218, 1537002063,
   1747873779, 1955562222, 2024104815, 2227730452, 2361852424,
   2428436474, 2756734187, 3204031479, 3329325298]

/-- The eight 32-bit working words of a SHA-256 state. -/
structure Sha256State where
  a : Nat
  b : Nat
  c : Nat
  d : Nat
  e : Nat
  f : Nat
  g : Nat
  hv : Nat
deriving Repr, DecidableEq

/-- The SHA-256 initial state (FIPS 180-4, in decimal). -/
def sha256H0 : Sha256State :=
  ⟨1779033703, 3144134277, 1013904242, 2773480762,
   1359893119, 2600822924, 528734635, 1541459225⟩

/-- SHA-256 padding: append `0x80`, zeros up to 56 mod 64, and the
big-endian 64-bit message bit length. -/
def sha256Pad (msg : List Nat) : List Nat :=
  let len := msg.length
  let bitLen := 8 * len
  let zeros := (119 - len % 64) % 64
  msg ++ 128 :: List.replicate zeros 0 ++
    [(bitLen >>> 56) % 256, (bitLen >>> 48) % 256, (bitLen >>> 40) % 256,
     (bitLen >>> 32) % 256, (bitLen >>> 24) % 256, (bitLen >>> 16) % 256,
     (bitLen >>> 8) % 256, bitLen % 256]

/-- Split a byte list into 64-byte blocks. -/
def chunks64 (l : List Nat) : List (List Nat) :=
  if h : l = [] then []
  else
    l.take 64 :: chunks64 (l.drop 64)
termination_by l.length
decreasing_by
  simp only [List.length_drop]
  have : 0 < l.length := List.length_pos.mpr h
  omega

/-- Big-endian 32-bit words from bytes. -/
def bytesToWords : List Nat → List Nat
  | b0 :: b1 :: b2 :: b3 :: rest =>
    ((((b0 <<< 8) ||| b1) <<< 8 ||| b2) <<< 8 ||| b3) :: bytesToWords rest
  | _ => []

/-- Extend a word list by `n` scheduled words. -/
def scheduleFrom (w : List Nat) : Nat → List Nat
  | 0 => w
  | n + 1 =>
    let i := w.length
    let wi := w32 (smallSigma1 (w.getD (i - 2) 0) + w.getD (i - 7) 0 +
      smallSigma0 (w.getD (i - 15) 0) + w.getD (i - 16) 0)
    scheduleFrom (w ++ [wi]) n

/-- The 64-word message schedule of one block. -/
def sha256Schedule (block : List Nat) : List Nat :=
  scheduleFrom (bytesToWords block) 48

/-- One SHA-256 round. -/
def sha256Round (s : Sha256State) (kw : Nat × Nat) : Sha256State :=
  let t1 := w32 (s.hv + bigSigma1 s.e + shaCh s.e s.f s.g + kw.1 + kw.2)
  let t2 := w32 (bigSigma0 s.a + shaMaj s.a s.b s.c)
  ⟨w32 (t1 + t2), s.a, s.b, s.c, w32 (s.d + t1), s.e, s.f, s.g⟩

/-- Compress one 64-byte block into the state. -/
def sha256Compress (st : Sha256State) (block : List Nat) : Sha256State :=
  let fin := (sha256K.zip (sha256Schedule block)).foldl sha256Round st
  ⟨w32 (st.a + fin.a), w32 (st.b + fin.b), w32 (st.c + fin.c),
   w32 (st.d + fin.d), w32 (st.e + fin.e), w32 (st.f + fin.f),
   w32 (st.g + fin.g), w32 (st.hv + fin.hv)⟩

/-- Big-endian bytes of a 32-bit word. -/
def wordBytes (w : Nat) : List Nat :=
  [(w >>> 24) % 256, (w >>> 16) % 256, (w >>> 8) % 256, w % 256]

/-- SHA-256 of a byte list, as the 32 digest bytes. -/
def sha256 (msg : List Nat) : List Nat :=
  let st := (chunks64 (sha256Pad msg)).foldl sha256Compress sha256H0
  wordBytes st.a ++ wordBytes st.b ++ wordBytes st.c ++ wordBytes st.d ++
    wordBytes st.e ++ wordBytes st.f ++ wordBytes st.g ++ wordBytes st.hv

/-- HMAC-SHA256 (`crypto/hmac` with `sha256.New`). -/
def hmacSha256 (key msg : List Nat) : List Nat :=
  let k0 := if 64 < key.length then sha256 key else key
  let k1 := k0 ++ List.replicate (64 - k0.length) 0
  let ipad := k1.map (fun x => x ^^^ 54)
  let opad := k1.map (fun x => x ^^^ 92)
  sha256 (opad ++ sha256 (ipad ++ msg))

/-- One lowercase hex digit. -/
def hexDigit (n : Nat) : Char :=
  if n < 10 then Char.ofNat (48 + n) else Char.ofNat (87 + n)

/-- Lowercase hex of a byte list (`hex.EncodeToString`). -/
def hexEncode (bs : List Nat) : String :=
  ⟨(bs.map (fun x => [hexDigit (x / 16), hexDigit (x % 16)])).flatten⟩

/-- The `Client` struct (lines 83-89).  `BaseURL` is carried in its
rendered string form; the `httpClient` handle holds no data consulted by
the functions modelled here and is omitted. -/
structure Client where
  BaseURL : String
  UserAgent : String
  apiKey : String
  apiSecretKey : String
deriving Repr, DecidableEq

/-- `signParams` (lines 97-121): HMAC-SHA256 of the canonical string,
keyed by `apiSecretKey`, hex-encoded lowercase. -/
def Client.signParams (c : Client) (params : Params) : String :=
  hexEncode (hmacSha256 (strBytes c.apiSecretKey) (strBytes (signBaseString params)))

/-- Concatenation of a list of strings; the normal form used to state what
the request-building folds produce. -/
def strConcat : List String → String
  | [] => ""
  | s :: rest => s ++ strConcat rest

/-- The target URL built by `newRequest` (lines 136-144): the resolved URL
`u` (the string form of the base URL resolved against the path, passed here
already resolved), then `?nonce=`, `&timestamp=`, `&signature=` spliced by
`fmt.Sprintf`, then one `&key=value` per extra query parameter, all
verbatim with no percent-encoding. -/
def buildTarget (c : Client) (u : String) (params queryParams : Params) : String :=
  let signature := c.signParams params
  let target := u ++ "?nonce=" ++ mapGet params "nonce" ++ "&timestamp=" ++
    mapGet params "timestamp" ++ "&signature=" ++ signature
  if 0 < queryParams.length then
    queryParams.foldl (fun t q => t ++ "&" ++ q.1 ++ "=" ++ q.2) target
  else
    target

/-! ### Clock, randomness, base parameters

`random` (lines 186-189) reseeds the process-wide generator with
`time.Now().Unix()` (whole seconds) on every call and then draws one value;
`getBaseParams` (lines 191-198) reads `time.Now().UnixNano()` for the
timestamp and lets `random` read the clock again for the seed.  Both clock
reads are passed explicitly: `nowNs` is the nanosecond reading behind the
timestamp, `seedSec` the second reading behind the seed. -/

/-- Modelled from the spec: the draw taken from Go's `math/rand` default
source after `rand.Seed(seed)` — standard-library code outside this
repository (its lagged-Fibonacci state tables are not in `src/`).  Per the
library's documented contract, `Seed` puts the source into a state fully
determined by `seed`, so the subsequent `Int63n` draw is a pure function of
the seed; a concrete stand-in mixing function represents that draw, and no
theorem below depends on its values beyond its being a function of `seed`. -/
def goSeededInt63n (seed n : Nat) : Nat :=
  ((2862933555777941757 * seed + 3037000493) % 9223372036854775808) % n

/-- `random` (lines 186-189): reseed from the current Unix second, then
`rand.Int63n(max-min) + min`. -/
def random (seedSec mi ma : Nat) : Nat :=
  goSeededInt63n seedSec (ma - mi) + mi

/-- `getBaseParams` (lines 191-198): the fresh `nonce`/`timestamp` map.
The timestamp is `UnixNano` divided by `time.Millisecond`, printed in
decimal; the nonce is `random(0, 10000000000000000)` printed in decimal. -/
def getBaseParams (nowNs seedSec : Nat) : Params :=
  let ts := toString (nowNs / 1000000)
  let nonce := toString (random seedSec 0 10000000000000000)
  [("nonce", nonce), ("timestamp", ts)]

/-- `strconv.Itoa(int(x))` for the `int64` identifiers. -/
def itoa (x : Int) : String := toString x

/-- The parameter set `ShowUser` (lines 244-257) hands to the signer: only
the base parameters — the two lines adding `id` and `institute_id` are
commented out in the source. -/
def showUserParams (nowNs seedSec : Nat) (instituteID userID : Int) : Params :=
  getBaseParams nowNs seedSec

/-- The parameter set `ShowStudent` (lines 260-274) hands to the signer:
base parameters plus `student_session_id` and `id`. -/
def showStudentParams (nowNs seedSec : Nat) (examID studentSessionID : Int) : Params :=
  mapSet (mapSet (getBaseParams nowNs seedSec)
    "student_session_id" (itoa studentSessionID)) "id" (itoa examID)

/-- The extra literal query parameters `ShowStudent` passes to
`newGetRequest` (line 266). -/
def showStudentQueryParams (studentSessionID : Int) : Params :=
  [("student_session_id", itoa studentSessionID)]

/-- The parameter set `IndexStudents` (lines 277-293) hands to the signer:
base parameters plus `id`. -/
def indexStudentsParams (nowNs seedSec : Nat) (examID : Int) : Params :=
  mapSet (getBaseParams nowNs seedSec) "id" (itoa examID)

/-! ### Transport/decoder and the resource pipeline -/

/-- An HTTP response as `do` observes it: a status code and a body. -/
structure HttpResponse where
  statusCode : Nat
  body : String
deriving Repr, DecidableEq

/-- What `do` (lines 160-184) returns, as Go's `(*http.Response, error)`
pair plus the value written through the destination pointer. -/
structure DoOutcome (V : Type) where
  resp : Option HttpResponse
  val : Option V
  err : Option String
deriving Repr, DecidableEq

/-- `do` (lines 160-184), with its two collaborators passed explicitly:
`transport` is the `c.httpClient.Do(req)` outcome and `decode` the stdlib
JSON decoder applied to a body.  On transport error `do` returns
`(nil, err)`; otherwise it decodes the body into the destination and
returns the response together with the decode error, if any.  The status
code is never consulted. -/
def doRequest {V : Type} (decode : String → Except String V)
    (transport : Except String HttpResponse) : DoOutcome V :=
  match transport with
  | .error e => ⟨none, none, some e⟩
  | .ok resp =>
    match decode resp.body with
    | .ok v => ⟨some resp, some v, none⟩
    | .error e => ⟨some resp, none, some e⟩

/-- A student record (lines 64-70). -/
structure Student where
  id : Int
  email : String
  name : String
  status : String
  exam_id : Int
deriving Repr, DecidableEq

/-- The JSON envelope wrapping the student list under the key `students`
(lines 78-80). -/
structure Students where
  items : List Student
deriving Repr, DecidableEq

/-- `IndexStudents` (lines 277-293) after the request is built,
parameterized by the outcomes of its two fallible steps: `buildErr` is the
error from `newGetRequest`, and `doStep` is the `(destination, error)`
outcome of `c.do(req, &students)` (the destination starts as the zero-value
envelope and holds whatever the decoder wrote).  On build error the
method returns `(nil, err)`; after `do` it returns `students.Items` with a
literal `nil` error — the `do` error is dropped. -/
def IndexStudents (buildErr : Option String)
    (doStep : Students × Option String) : List Student × Option String :=
  match buildErr with
  | some e => ([], some e)
  | none => (doStep.1.items, none)

/-- `ShowStudent` (lines 260-274) after the request is built, with the same
parameterization; it propagates the `do` error. -/
def ShowStudent (buildErr : Option String)
    (doStep : Student × Option String) : Student × Option String :=
  match buildErr with
  | some e => (⟨0, "", "", "", 0⟩, some e)
  | none => (doStep.1, doStep.2)

/-! ### Construction (`main`) -/

/-- The three environment inputs read by `main` (lines 295-311). -/
structure Env where
  endpoint : String
  key : String
  secret : String
deriving Repr, DecidableEq

/-- `main`'s client construction (lines 295-311).  `parseResult` stands for
the stdlib `url.Parse(env.endpoint)` outcome (note `url.Parse` returns a
nil error even on the empty string); an error there panics, modelled as an
error result.  No emptiness check is performed on the endpoint, the API
key, or the API secret: the client is built from whatever values are
present. -/
def mainConstruct (env : Env) (parseResult : Except String String) : Except String Client :=
  match parseResult with
  | .error e => .error e
  | .ok u =>
    .ok { BaseURL := u, UserAgent := "ProctorExam golang SDK user agent",
          apiKey := env.key, apiSecretKey := env.secret }

/-- A fixed sample client used by concrete instantiations. -/
def sampleClient : Client :=
  { BaseURL := "https://x.example", UserAgent := "ua",
    apiKey := "key", apiSecretKey := "secret" }

/-! ### Helper lemmas -/

/-- A left fold appending one piece per element is the starting string
followed by the concatenation of the pieces. -/
theorem foldl_append_eq {α : Type} (g : α → String) (l : List α) (t : String) :
    l.foldl (fun acc x => acc ++ g x) t = t ++ strConcat (l.map g) := by
  induction l generalizing t with
  | nil => simp [strConcat]
  | cons x xs ih =>
    simp only [List.foldl_cons, List.map_cons, strConcat, ih,
      String.append_assoc]

/-- A `signBaseStep` result is never the empty string (it contains `=`). -/
theorem signBaseStep_length_ne (params : Params) (t k : String) :
    (signBaseStep params t k).length ≠ 0 := by
  have h1 : String.length "=" = 1 := rfl
  have h2 : String.length "?" = 1 := rfl
  unfold signBaseStep
  by_cases ht : t.length = 0 <;>
    simp [ht, String.length_append, h1, h2]

/-- Once the accumulator is nonempty, the `baseString` loop of `signParams`
appends `?key=value` for every remaining key. -/
theorem foldl_signBaseStep_of_ne (params : Params) (ks : List String) (t : String)
    (ht : t.length ≠ 0) :
    ks.foldl (signBaseStep params) t =
      t ++ strConcat (ks.map (fun k => "?" ++ k ++ "=" ++ mapGet params k)) := by
  induction ks generalizing t with
  | nil => simp [strConcat]
  | cons k ks ih =>
    rw [List.foldl_cons, ih _ (signBaseStep_length_ne params t k)]
    have hstep : signBaseStep params t k =
        t ++ ("?" ++ k ++ "=" ++ mapGet params k) := by
      unfold signBaseStep
      rw [if_neg ht]
      simp [String.append_assoc]
    rw [hstep, List.map_cons, strConcat, String.append_assoc]

/-- `sortedKeys` has one entry per parameter. -/
theorem sortedKeys_length (params : Params) :
    (sortedKeys params).length = params.length := by
  unfold sortedKeys
  rw [List.length_insertionSort, List.length_map]

/-! ### C1: shape of the canonical signing string -/

/-- C1 (counterexample): the claim says the canonical string built by
`signParams` always begins with a leading `?` (the first pair being
prefixed with `?` as well).  For the one-key parameter set
`[("nonce", "1")]` the current `signParams` (lines 104-111) builds
`nonce=1`, which does not start with `?`. -/
theorem c1_counterexample :
    ([("nonce", "1")] : Params) ≠ [] ∧
    signBaseString [("nonce", "1")] = "nonce=1" ∧
    ("nonce=1").data.head? ≠ some '?' := by
  refine ⟨by decide, by decide, by decide⟩

/-- C1 (amended): for every parameter set with at least one key, the
canonical string built by `signParams` concatenates, in lexicographically
sorted key order, the first pair as `key=value` with no prefix and every
later pair as `?key=value`; the string thus begins with the first sorted
key, not with a guaranteed `?`.  (The older draft's `signParams`, lines
435-438, did prefix every pair with `?`; the current loop does not.) -/
theorem c1_canonical_shape (params : Params) (hne : params ≠ []) :
    ∃ k ks, sortedKeys params = k :: ks ∧
      signBaseString params =
        k ++ "=" ++ mapGet params k ++
          strConcat (ks.map (fun k2 => "?" ++ k2 ++ "=" ++ mapGet params k2)) := by
  have hlen : (sortedKeys params).length = params.length := sortedKeys_length params
  cases hsk : sortedKeys params with
  | nil =>
    rw [hsk] at hlen
    exact absurd (List.eq_nil_of_length_eq_zero hlen.symm) hne
  | cons k ks =>
    refine ⟨k, ks, rfl, ?_⟩
    unfold signBaseString
    rw [hsk, List.foldl_cons]
    have hfirst : signBaseStep params "" k = k ++ "=" ++ mapGet params k := by
      unfold signBaseStep
      rw [if_pos (show String.length "" = 0 from rfl)]
    rw [hfirst, foldl_signBaseStep_of_ne params ks _ (by
      rw [← hfirst]
      exact signBaseStep_length_ne params "" k)]

/-- C1 (witness for the amended theorem): instantiated at
`[("nonce", "1")]`. -/
theorem c1_canonical_shape_witness :
    ([("nonce", "1")] : Params) ≠ [] ∧
    (∃ k ks, sortedKeys [("nonce", "1")] = k :: ks ∧
      signBaseString [("nonce", "1")] =
        k ++ "=" ++ mapGet [("nonce", "1")] k ++
          strConcat (ks.map (fun k2 =>
            "?" ++ k2 ++ "=" ++ mapGet [("nonce", "1")] k2))) :=
  ⟨by decide, c1_canonical_shape [("nonce", "1")] (by decide)⟩

/-! ### C2: determinism of `signParams` -/

/-- C2: `signParams` is a deterministic function of the parameter set and
the secret alone: two clients agreeing on `apiSecretKey` produce the same
signature on equal parameter sets, whatever their other fields and with no
dependence on hidden state (the embedding gives `signParams` no state
besides its two inputs). -/
theorem c2_signParams_deterministic (c₁ c₂ : Client) (p₁ p₂ : Params)
    (hsec : c₁.apiSecretKey = c₂.apiSecretKey) (hp : p₁ = p₂) :
    c₁.signParams p₁ = c₂.signParams p₂ := by
  subst hp
  unfold Client.signParams
  rw [hsec]

/-- C2 (witness): two clients sharing the secret but differing in every
other field sign `[("a", "1")]` identically. -/
theorem c2_witness :
    (Client.mk "https://a.example" "ua1" "k1" "secret").apiSecretKey =
      (Client.mk "https://b.example" "ua2" "k2" "secret").apiSecretKey ∧
    (Client.mk "https://a.example" "ua1" "k1" "secret").signParams [("a", "1")] =
      (Client.mk "https://b.example" "ua2" "k2" "secret").signParams [("a", "1")] :=
  ⟨rfl, c2_signParams_deterministic _ _ [("a", "1")] [("a", "1")] rfl rfl⟩

/-! ### C3: `IndexStudents` drops the `do` error -/

/-- C3 (failing input evaluated): when the `do` step of `IndexStudents`
yields a non-nil error (here a transport failure, with the destination left
at its zero value), `IndexStudents` returns `(students.Items, nil)` — the
error is dropped, contradicting the uniform pattern of the five sibling
resource methods and the spec's "none are swallowed". -/
theorem c3_indexStudents_drops_do_error :
    IndexStudents none (⟨[]⟩, some "connection refused") = ([], none) := rfl

/-! ### C4: which parameters `ShowUser` signs -/

/-- C4 (counterexample): the claim says the parameter set `ShowUser` passes
to the signer includes `id` and `institute_id`.  At institute 17, user 11
(clock readings 1 and 2), neither key is present: the two lines adding them
are commented out in the source (lines 247-248). -/
theorem c4_counterexample :
    ¬ ("id" ∈ (showUserParams 1 2 17 11).map Prod.fst ∧
       "institute_id" ∈ (showUserParams 1 2 17 11).map Prod.fst) := by
  intro h
  have := h.1
  simp [showUserParams, getBaseParams] at this

/-- C4 (amended): `ShowUser` hands the signer only the base parameters
`nonce` and `timestamp`; the identifier fields `id` and `institute_id` do
not enter the signed parameter set, so the signature does not cover the
identifiers appearing in the URL path. -/
theorem c4_showUser_signs_only_base_params (nowNs seedSec : Nat)
    (instituteID userID : Int) :
    (showUserParams nowNs seedSec instituteID userID).map Prod.fst =
      ["nonce", "timestamp"] := rfl

/-! ### C5: `do` never consults the status code -/

/-- C5: for every response whose body decodes successfully into the
destination, `do` returns a nil error whatever the status code; and in
general the error result of `do` on a completed transport depends only on
the body's decodability, never on the status code. -/
theorem c5_do_error_independent_of_status {V : Type}
    (decode : String → Except String V) (resp : HttpResponse) (v : V)
    (hdecode : decode resp.body = Except.ok v) :
    (doRequest decode (Except.ok resp)).err = none ∧
    ∀ s₁ s₂ body, (doRequest decode (Except.ok ⟨s₁, body⟩)).err =
      (doRequest decode (Except.ok ⟨s₂, body⟩)).err := by
  constructor
  · simp [doRequest, hdecode]
  · intro s₁ s₂ body
    simp only [doRequest]
    cases decode body <;> rfl

/-- A sample JSON-decode outcome function: the body `"ok"` decodes, any
other body fails. -/
def sampleDecode : String → Except String Nat :=
  fun s => if s = "ok" then Except.ok 7 else Except.error "invalid JSON"

/-- C5 (witness): a 500-status response with decodable body yields a nil
`do` error. -/
theorem c5_witness :
    sampleDecode "ok" = Except.ok 7 ∧
    (doRequest sampleDecode (Except.ok ⟨500, "ok"⟩)).err = none ∧
    (doRequest sampleDecode (Except.ok ⟨200, "ok"⟩)).err =
      (doRequest sampleDecode (Except.ok ⟨500, "ok"⟩)).err := by
  have hd : sampleDecode "ok" = Except.ok 7 := by
    simp [sampleDecode]
  have h := c5_do_error_independent_of_status sampleDecode ⟨500, "ok"⟩ 7 hd
  exact ⟨hd, h.1, h.2 200 500 "ok"⟩

/-! ### C6: insertion order does not affect the signature -/

/-- On maps with distinct keys, a key lookup is unaffected by a
permutation of the pair list. -/
theorem find?_key_eq_of_perm (p₁ p₂ : Params) (hperm : p₁.Perm p₂)
    (hnd : (p₁.map Prod.fst).Nodup) (k : String) :
    p₁.find? (fun q => q.1 == k) = p₂.find? (fun q => q.1 == k) := by
  cases h₁ : p₁.find? (fun q => q.1 == k) with
  | none =>
    symm
    rw [List.find?_eq_none] at h₁ ⊢
    intro x hx
    exact h₁ x (hperm.mem_iff.mpr hx)
  | some q =>
    have hqp := List.find?_some h₁
    have hqmem : q ∈ p₁ := List.mem_of_find?_eq_some h₁
    cases h₂ : p₂.find? (fun q => q.1 == k) with
    | none =>
      rw [List.find?_eq_none] at h₂
      exact absurd hqp (h₂ q (hperm.mem_iff.mp hqmem))
    | some q' =>
      have hq'p := List.find?_some h₂
      have hq'mem : q' ∈ p₁ := hperm.mem_iff.mpr (List.mem_of_find?_eq_some h₂)
      have e1 : q.1 = k := by simpa using hqp
      have e2 : q'.1 = k := by simpa using hq'p
      have : q = q' :=
        List.inj_on_of_nodup_map hnd hqmem hq'mem (by rw [e1, e2])
      rw [this]

/-- `mapGet` is unaffected by a permutation of a distinct-key map. -/
theorem mapGet_eq_of_perm (p₁ p₂ : Params) (hperm : p₁.Perm p₂)
    (hnd : (p₁.map Prod.fst).Nodup) (k : String) :
    mapGet p₁ k = mapGet p₂ k := by
  unfold mapGet
  rw [find?_key_eq_of_perm p₁ p₂ hperm hnd k]

/-- Permuting the pair list leaves the sorted key list unchanged: both
sorted lists are sorted permutations of the same keys. -/
theorem sortedKeys_eq_of_perm (p₁ p₂ : Params) (hperm : p₁.Perm p₂) :
    sortedKeys p₁ = sortedKeys p₂ := by
  exact List.eq_of_perm_of_sorted
    ((List.perm_insertionSort _ _).trans
      ((hperm.map Prod.fst).trans (List.perm_insertionSort _ _).symm))
    (List.sorted_insertionSort _ _) (List.sorted_insertionSort _ _)

/-- The canonical string is unaffected by a permutation of a distinct-key
parameter list. -/
theorem signBaseString_eq_of_perm (p₁ p₂ : Params) (hperm : p₁.Perm p₂)
    (hnd : (p₁.map Prod.fst).Nodup) :
    signBaseString p₁ = signBaseString p₂ := by
  unfold signBaseString
  rw [sortedKeys_eq_of_perm p₁ p₂ hperm]
  have hstep : signBaseStep p₁ = signBaseStep p₂ := by
    funext acc k
    unfold signBaseStep
    rw [mapGet_eq_of_perm p₁ p₂ hperm hnd k]
  rw [hstep]

/-- C6: two parameter sets holding exactly the same key/value pairs,
inserted in different orders (modelled as permuted pair lists with
distinct keys, since Go map iteration order is arbitrary), receive the
identical signature: the key sort makes `signParams` insertion-order
independent. -/
theorem c6_signParams_order_independent (c : Client) (p₁ p₂ : Params)
    (hperm : p₁.Perm p₂) (hnd : (p₁.map Prod.fst).Nodup) :
    c.signParams p₁ = c.signParams p₂ := by
  unfold Client.signParams
  rw [signBaseString_eq_of_perm p₁ p₂ hperm hnd]

/-- C6 (witness): the pairs `a=1, b=2` inserted in the two possible orders
sign identically under the sample client. -/
theorem c6_witness :
    ([("b", "2"), ("a", "1")] : Params).Perm [("a", "1"), ("b", "2")] ∧
    (([("b", "2"), ("a", "1")] : Params).map Prod.fst).Nodup ∧
    sampleClient.signParams [("b", "2"), ("a", "1")] =
      sampleClient.signParams [("a", "1"), ("b", "2")] := by
  have hp : ([("b", "2"), ("a", "1")] : Params).Perm [("a", "1"), ("b", "2")] := by
    decide
  have hn : (([("b", "2"), ("a", "1")] : Params).map Prod.fst).Nodup := by
    decide
  exact ⟨hp, hn, c6_signParams_order_independent sampleClient _ _ hp hn⟩

/-! ### C7: nonce freshness across invocations -/

/-- C7 (counterexample): the claim says two successive invocations of
`getBaseParams` produce two different nonce values and therefore two
different signatures.  Two invocations 0.4 ms apart — distinct clock
instants, but the same Unix second (so `random` reseeds identically) and
the same millisecond (so the timestamps agree) — produce the identical
parameter map and hence the identical signature. -/
theorem c7_counterexample :
    (1700000000000000000 : Nat) ≠ 1700000000000400000 ∧
    getBaseParams 1700000000000000000 1700000000 =
      getBaseParams 1700000000000400000 1700000000 ∧
    sampleClient.signParams (getBaseParams 1700000000000000000 1700000000) =
      sampleClient.signParams (getBaseParams 1700000000000400000 1700000000) := by
  have hts : (1700000000000000000 : Nat) / 1000000 =
      1700000000000400000 / 1000000 := by decide
  have hp : getBaseParams 1700000000000000000 1700000000 =
      getBaseParams 1700000000000400000 1700000000 := by
    unfold getBaseParams
    rw [hts]
  exact ⟨by decide, hp, congrArg _ hp⟩

/-- C7 (amended): `random` reseeds the process-wide generator from the
current Unix second on every call, so the nonce is a function of that
second alone: two invocations of `getBaseParams` reading the same
seed-second get the same nonce, whatever their nanosecond readings; if
they also fall in the same millisecond the whole parameter map and the
resulting signature coincide.  Distinct nonces therefore require distinct
clock seconds — they are not guaranteed for two successive calls. -/
theorem c7_nonce_depends_only_on_seed_second (c : Client) (t₁ t₂ s₁ s₂ : Nat)
    (hs : s₁ = s₂) :
    mapGet (getBaseParams t₁ s₁) "nonce" = mapGet (getBaseParams t₂ s₂) "nonce" ∧
    (t₁ / 1000000 = t₂ / 1000000 →
      getBaseParams t₁ s₁ = getBaseParams t₂ s₂ ∧
      c.signParams (getBaseParams t₁ s₁) = c.signParams (getBaseParams t₂ s₂)) := by
  subst hs
  constructor
  · rfl
  · intro ht
    have hp : getBaseParams t₁ s₁ = getBaseParams t₂ s₁ := by
      unfold getBaseParams
      rw [ht]
    exact ⟨hp, congrArg _ hp⟩

/-- C7 (witness for the amended theorem): instantiated at two nanosecond
readings in the same millisecond and the same seed second. -/
theorem c7_witness :
    (5 : Nat) = 5 ∧
    (mapGet (getBaseParams 1000000 5) "nonce" =
       mapGet (getBaseParams 1999999 5) "nonce" ∧
     (1000000 / 1000000 = 1999999 / 1000000 →
       getBaseParams 1000000 5 = getBaseParams 1999999 5 ∧
       sampleClient.signParams (getBaseParams 1000000 5) =
         sampleClient.signParams (getBaseParams 1999999 5))) :=
  ⟨rfl, c7_nonce_depends_only_on_seed_second sampleClient 1000000 1999999 5 5 rfl⟩

/-! ### C8: the student session id is signed and sent -/

/-- C8: `ShowStudent` places the session identifier both in the parameter
set handed to the signer (under `student_session_id`) and as an extra
literal query parameter spliced onto the final URL after the
nonce/timestamp/signature triple. -/
theorem c8_showStudent_session_id_signed_and_in_url (c : Client) (u : String)
    (nowNs seedSec : Nat) (examID sid : Int) :
    mapGet (showStudentParams nowNs seedSec examID sid) "student_session_id" =
      itoa sid ∧
    buildTarget c u (showStudentParams nowNs seedSec examID sid)
        (showStudentQueryParams sid) =
      buildTarget c u (showStudentParams nowNs seedSec examID sid) [] ++
        "&" ++ "student_session_id" ++ "=" ++ itoa sid := by
  constructor
  · simp [showStudentParams, mapSet, getBaseParams, mapGet]
  · simp [buildTarget, showStudentQueryParams]

/-! ### C9: construction does not validate its inputs -/

/-- C9 (counterexample): the claim says client construction fails when the
API key or secret is absent.  With a parseable endpoint and empty key and
secret, `main` constructs the client without any error. -/
theorem c9_counterexample :
    mainConstruct ⟨"https://x.example", "", ""⟩
        (Except.ok "https://x.example") =
      Except.ok { BaseURL := "https://x.example",
                  UserAgent := "ProctorExam golang SDK user agent",
                  apiKey := "", apiSecretKey := "" } := rfl

/-- C9 (amended): construction performs no validation at all.  Whenever
`url.Parse` succeeds — which it does even on an empty endpoint string —
the client is built from whatever endpoint, key and secret are present,
empty or not, with no error; the only construction-time failure is a
`url.Parse` error (a panic in the source).  Absent credentials surface
only at the first authenticated call, not at construction. -/
theorem c9_construct_never_validates (env : Env) (u : String) :
    mainConstruct env (Except.ok u) =
      Except.ok { BaseURL := u,
                  UserAgent := "ProctorExam golang SDK user agent",
                  apiKey := env.key, apiSecretKey := env.secret } ∧
    ∀ e, mainConstruct env (Except.error e) = Except.error e :=
  ⟨rfl, fun _ => rfl⟩

/-! ### C10: the target URL is verbatim concatenation -/

/-- C10: the URL built by `newRequest` is exactly the resolved base URL,
then `?nonce=`, `&timestamp=`, `&signature=` with the corresponding values
spliced verbatim, then `&key=value` for each extra query pair in iteration
order — plain string concatenation with no percent-encoding, so values
holding URL metacharacters land in the URL unescaped. -/
theorem c10_newRequest_target_verbatim (c : Client) (u : String)
    (params queryParams : Params) :
    buildTarget c u params queryParams =
      u ++ "?nonce=" ++ mapGet params "nonce" ++ "&timestamp=" ++
        mapGet params "timestamp" ++ "&signature=" ++ c.signParams params ++
        strConcat (queryParams.map (fun q => "&" ++ q.1 ++ "=" ++ q.2)) := by
  unfold buildTarget
  by_cases hq : 0 < queryParams.length
  · rw [if_pos hq]
    have hfun : (fun (t : String) (q : String × String) =>
        t ++ "&" ++ q.1 ++ "=" ++ q.2) =
        (fun t q => t ++ ("&" ++ q.1 ++ "=" ++ q.2)) := by
      funext t q
      simp [String.append_assoc]
    rw [hfun, foldl_append_eq]
  · rw [if_neg hq]
    have hnil : queryParams = [] := by
      cases queryParams with
      | nil => rfl
      | cons q qs => simp at hq
    subst hnil
    simp [strConcat]

end ProctorExam
